import Mathlib

/-!
Verification of the authorization and resource-ownership layer of the
payment-gateway-api hackathon backend, shallowly embedded from
`src/controllers/ProjectsController.ts`.

Handlers are embedded as pure functions from a database state and the
request data to a pair of (response, new state).  Mongo/Mongoose
operations are embedded over lists:
  * `Model.findOne(pred)` / `Model.findById(id)`  →  `List.find?`
  * `Model.findByIdAndDelete(id)`                 →  `List.eraseP`
  * `doc.updateOne({$addToSet: {prizes: [x]}})`   →  map over the matching
    id, inserting `x` into `prizes` when absent (Mongoose casts the array
    operand of `$addToSet` to `$each`, so the element inserted is the
    prize id itself).
The transport helpers `bad`, `notFound`, `error` from `util/error` and
the collaborators `getTartanHacks` and `findUserTeam` are not part of the
sources; they are modelled from the spec as noted on each definition.
-/

/-- A hackathon project (`models/Project`): identifier, descriptive
attributes, owning team reference, event reference, and the list of prize
identifiers the project is entered into. -/
structure Project where
  pid : Nat
  name : String
  description : String
  url : String
  slides : String
  video : String
  event : Nat
  team : Nat
  prizes : List Nat
  deriving DecidableEq, Repr

/-- A prize (`models/Prize`): identifier, event and provider references,
optional winner (project) reference. -/
structure Prize where
  zid : Nat
  name : String
  description : String
  event : Nat
  provider : Nat
  winner : Option Nat
  deriving DecidableEq, Repr

/-- A team: identifier and member user identifiers. -/
structure Team where
  tid : Nat
  members : List Nat
  deriving DecidableEq, Repr

/-- The authenticated caller placed in `res.locals.user` by the auth
middleware: user identifier and admin flag. -/
structure Caller where
  uid : Nat
  admin : Bool
  deriving DecidableEq, Repr

/-- The database state visible to the controllers: the current-event
identifier (the singleton fetched by `getTartanHacks`, modelled from the
spec as an explicit piece of state), the stored projects, prizes and
teams, and the next fresh object id. -/
structure St where
  tartanHacksId : Nat
  projects : List Project
  prizes : List Prize
  teams : List Team
  nextId : Nat
  deriving DecidableEq, Repr

/-- Transport-level outcome of a handler, `α` the JSON payload on
success.  Modelled from the spec: the `util/error` helpers are not in the
sources; per the spec's error taxonomy and the route documentation,
`bad` (HTTP 400, optional message) is distinct from `notFound` (HTTP 404)
and from `error` (HTTP 500), so they are separate constructors. -/
inductive Response (α : Type) where
  | ok (payload : α)
  | bad (msg : String)
  | notFound
  | error
  deriving DecidableEq, Repr

/-- Modelled from the spec: `findUserTeam` (TeamController, not in the
sources) is the team-directory lookup team-by-member-id; it resolves the
acting user's current team, `none` when the user belongs to no team. -/
def findUserTeam (st : St) (userId : Nat) : Option Team :=
  st.teams.find? (fun t => t.members.contains userId)

/-- The request body of `createNewProject`: descriptive attributes plus
the caller-supplied target team id. -/
structure CreateProjectBody where
  name : String
  description : String
  url : String
  slides : String
  video : String
  team : Nat
  deriving DecidableEq, Repr

/-- The ownership gate of `createNewProject` (lines 30-40): `none` means
the operation is allowed to proceed, `some msg` the denial response body.
Admins skip the checks; a non-admin without a team is denied with the
no-team message; a non-admin whose team differs from the target team is
denied with the not-owner message. -/
def createDenial (caller : Caller) (st : St) (team : Nat) : Option String :=
  if caller.admin then none
  else
    match findUserTeam st caller.uid with
    | none => some "You must be in a team to create a project."
    | some userTeam =>
      if userTeam.tid ≠ team then some "You can only create projects for your team."
      else none

/-- The project document built by `createNewProject` (`new Project({...})`):
the body attributes, the current event fetched by `getTartanHacks`
(modelled as `st.tartanHacksId`), an empty prize list, and a fresh id. -/
def newProject (st : St) (b : CreateProjectBody) : Project :=
  { pid := st.nextId, name := b.name, description := b.description,
    url := b.url, slides := b.slides, video := b.video,
    event := st.tartanHacksId, team := b.team, prizes := [] }

/-- `createNewProject`: fetches the current event, rejects when a project
keyed by (team, event) already exists, then (for non-admins) runs the
ownership gate, and finally inserts the new project with an empty prize
list and a fresh id. -/
def createNewProject (caller : Caller) (st : St) (b : CreateProjectBody) :
    Response Project × St :=
  match st.projects.find? (fun p => p.team == b.team && p.event == st.tartanHacksId) with
  | some _ =>
    (.bad "You already have a project. Please edit or delete your existing project.", st)
  | none =>
    match createDenial caller st b.team with
    | some msg => (.bad msg, st)
    | none =>
      (.ok (newProject st b),
       { st with projects := st.projects ++ [newProject st b], nextId := st.nextId + 1 })

/-- Authorization denial reasons of the ownership layer. -/
inductive Reason where
  | NoTeam
  | NotOwner
  deriving DecidableEq, Repr

/-- Decision of the Ownership Authorizer. -/
inductive Decision where
  | ALLOW
  | DENY (r : Reason)
  deriving DecidableEq, Repr

/-- The Ownership Authorizer decision function, extracted from the guard
cascade of `createNewProject` (lines 30-40): admin callers are allowed;
a caller with no resolved team is denied `NoTeam`; a caller whose
resolved team differs from the target team is denied `NotOwner`;
otherwise allowed. -/
def authorize (admin : Bool) (userTeam : Option Nat) (targetTeam : Nat) : Decision :=
  if admin then .ALLOW
  else
    match userTeam with
    | none => .DENY .NoTeam
    | some t => if t = targetTeam then .ALLOW else .DENY .NotOwner

/-- The denial message carried by each authorization reason in
`createNewProject`. -/
def reasonMsg : Reason → String
  | .NoTeam => "You must be in a team to create a project."
  | .NotOwner => "You can only create projects for your team."

/-- Mongo's `$addToSet`: insert `x` into `l` when absent, otherwise leave
`l` unchanged (set semantics over the stored array). -/
def addToSet (l : List Nat) (x : Nat) : List Nat :=
  if x ∈ l then l else l ++ [x]

/-- `doc.updateOne` on the project with the given id: apply `f` to the
stored projects with that id, leaving all others untouched. -/
def updateProjects (l : List Project) (id : Nat) (f : Project → Project) : List Project :=
  l.map (fun p => if p.pid == id then f p else p)

/-- The per-document effect of `enterProject`'s `$addToSet` update:
insert the prize id into the project's `prizes`. -/
def enterUpdate (prize : Prize) (p : Project) : Project :=
  { p with prizes := addToSet p.prizes prize.zid }

/-- `enterProject`: looks up the project and the prize; a missing
reference fails with a 400 `bad` response ("Invalid Project ID" /
"Invalid Prize ID"); otherwise inserts the prize id into the project's
`prizes` via `$addToSet`, refetches the project and returns it.  The
route carries the project id as a path parameter and the prize id as a
query parameter; the handler also guards against a literally null id
(`Missing ...`).  The caller identity is available to the handler
(`res.locals.user`) but never read. -/
def enterProject (_caller : Caller) (st : St) (idParam prizeIDParam : Option Nat) :
    Response Project × St :=
  match idParam with
  | none => (.bad "Missing Project ID", st)
  | some id =>
    match prizeIDParam with
    | none => (.bad "Missing Prize ID", st)
    | some prizeID =>
      match st.projects.find? (fun p => p.pid == id) with
      | none => (.bad "Invalid Project ID", st)
      | some _project =>
        match st.prizes.find? (fun z => z.zid == prizeID) with
        | none => (.bad "Invalid Prize ID", st)
        | some prize =>
          let projects' := updateProjects st.projects id (enterUpdate prize)
          let st' := { st with projects := projects' }
          match projects'.find? (fun p => p.pid == id) with
          | none => (.error, st')
          | some updatedProject => (.ok updatedProject, st')

/-- `deleteProject`: guards against a literally null id, then
`findByIdAndDelete` removes the project with the given id (at most one,
ids being Mongo `_id`s) and the handler unconditionally reports success. -/
def deleteProject (st : St) (idParam : Option Nat) : Response String × St :=
  match idParam with
  | none => (.bad "Missing Project ID.", st)
  | some id =>
    (.ok "Successfully deleted project.",
     { st with projects := st.projects.eraseP (fun p => p.pid == id) })

/-- `getProjectByTeamID`: `findOne({team: id})`; returns the project when
found, a 404 `notFound` otherwise. -/
def getProjectByTeamID (st : St) (id : Nat) : Response Project × St :=
  match st.projects.find? (fun p => p.team == id) with
  | some result => (.ok result, st)
  | none => (.notFound, st)

/-- The request data reaching `getProjectByUserID`: the path parameter
`id` is the acting user's id; `forgedTeamId` stands for any additional
caller-supplied team identifier (query or body) — the source handler
reads only `req.params.id` and never such a field. -/
structure UserProjectRequest where
  userId : Nat
  forgedTeamId : Option Nat
  deriving DecidableEq, Repr

/-- `getProjectByUserID`: resolves the acting user's team via
`findUserTeam` on the path user id; a user with no team gets a 400
denial; otherwise the team id overwrites the path parameter and the
lookup delegates to `getProjectByTeamID` on the resolved team. -/
def getProjectByUserID (st : St) (req : UserProjectRequest) : Response Project × St :=
  match findUserTeam st req.userId with
  | none => (.bad "User does not have a team!", st)
  | some populatedTeam => getProjectByTeamID st populatedTeam.tid

/-- Two projects clash when they share the (team, event) key. -/
def keyClash (p q : Project) : Prop :=
  p.team = q.team ∧ p.event = q.event

instance keyClash.decide : DecidableRel keyClash := by
  intro p q
  unfold keyClash
  infer_instance

/-- The per-(team, event) uniqueness invariant over the stored projects:
no two stored projects share the (team, event) key. -/
def uniquePerTeamEvent (l : List Project) : Prop :=
  l.Pairwise (fun p q => ¬ keyClash p q)

instance uniquePerTeamEvent.decide (l : List Project) : Decidable (uniquePerTeamEvent l) :=
  List.instDecidablePairwise l

/-- Running a sequence of `createNewProject` calls from a state. -/
def runCreates (calls : List (Caller × CreateProjectBody)) (st : St) : St :=
  calls.foldl (fun s cb => (createNewProject cb.1 s cb.2).2) st

/-! ### Concrete fixtures used to instantiate the theorems -/

/-- A stored project of team 1 for event 0, already entered in prize 3. -/
def projA : Project :=
  { pid := 10, name := "a", description := "d", url := "u", slides := "s",
    video := "v", event := 0, team := 1, prizes := [3] }

/-- A stored prize for event 0. -/
def przA : Prize :=
  { zid := 3, name := "grand", description := "g", event := 0, provider := 2,
    winner := none }

/-- Team 1, whose only member is user 100. -/
def teamA : Team := { tid := 1, members := [100] }

/-- Team 2, whose only member is user 200. -/
def teamB : Team := { tid := 2, members := [200] }

/-- A concrete database state: current event 0, one stored project
(team 1), one prize, two teams. -/
def stW : St :=
  { tartanHacksId := 0, projects := [projA], prizes := [przA],
    teams := [teamA, teamB], nextId := 11 }

/-- A creation request body targeting team 1. -/
def bodyTeam1 : CreateProjectBody :=
  { name := "n", description := "d", url := "u", slides := "s", video := "v",
    team := 1 }

/-- A creation request body targeting team 2. -/
def bodyTeam2 : CreateProjectBody :=
  { name := "n", description := "d", url := "u", slides := "s", video := "v",
    team := 2 }

/-- A non-admin caller who belongs to no team. -/
def noTeamUser : Caller := { uid := 300, admin := false }

/-- The guard cascade of `createNewProject` and the extracted `authorize`
decision function agree: the gate passes exactly when `authorize` allows,
and denies with the message of the reason `authorize` returns. -/
theorem createDenial_eq_authorize (caller : Caller) (st : St) (team : Nat) :
    createDenial caller st team =
      match authorize caller.admin ((findUserTeam st caller.uid).map Team.tid) team with
      | .ALLOW => none
      | .DENY r => some (reasonMsg r) := by
  unfold createDenial authorize
  cases caller.admin <;> simp
  cases findUserTeam st caller.uid with
  | none => simp [reasonMsg]
  | some t =>
    by_cases h : t.tid = team <;> simp [h, reasonMsg]

/-! ### Helper lemmas on the embedded store operations -/

theorem mem_addToSet_self (l : List Nat) (x : Nat) : x ∈ addToSet l x := by
  unfold addToSet
  by_cases h : x ∈ l <;> simp [h]

theorem addToSet_of_mem {l : List Nat} {x : Nat} (h : x ∈ l) : addToSet l x = l := by
  simp [addToSet, h]

theorem addToSet_idem (l : List Nat) (x : Nat) :
    addToSet (addToSet l x) x = addToSet l x :=
  addToSet_of_mem (mem_addToSet_self l x)

theorem enterUpdate_pid (z : Prize) (p : Project) : (enterUpdate z p).pid = p.pid := rfl

theorem enterUpdate_idem (z : Prize) (p : Project) :
    enterUpdate z (enterUpdate z p) = enterUpdate z p := by
  simp [enterUpdate, addToSet_idem]

theorem enterUpdate_of_mem {z : Prize} {p : Project} (h : z.zid ∈ p.prizes) :
    enterUpdate z p = p := by
  simp [enterUpdate, addToSet_of_mem h]

theorem find?_updateProjects (l : List Project) (id : Nat) (f : Project → Project)
    (hf : ∀ p, (f p).pid = p.pid) :
    (updateProjects l id f).find? (fun p => p.pid == id) =
      (l.find? (fun p => p.pid == id)).map f := by
  induction l with
  | nil => rfl
  | cons a t ih =>
    simp only [updateProjects, List.map_cons, List.find?_cons]
    cases hb : (a.pid == id) with
    | true =>
      have hb2 : ((f a).pid == id) = true := by rw [hf a]; exact hb
      simp only [hb, if_true, hb2, Option.map_some']
    | false =>
      simp only [hb, Bool.false_eq_true, if_false]
      exact ih

theorem updateProjects_idem (l : List Project) (id : Nat) (f : Project → Project)
    (hf : ∀ p, (f p).pid = p.pid) (hidem : ∀ p, f (f p) = f p) :
    updateProjects (updateProjects l id f) id f = updateProjects l id f := by
  induction l with
  | nil => rfl
  | cons a t ih =>
    simp only [updateProjects, List.map_cons]
    cases hb : (a.pid == id) with
    | true =>
      have hb2 : ((f a).pid == id) = true := by rw [hf a]; exact hb
      simp only [hb, if_true, hb2, hidem a]
      exact congrArg _ ih
    | false =>
      simp only [hb, Bool.false_eq_true, if_false]
      exact congrArg _ ih

theorem mem_eraseP_of_not {l : List Project} {p : Project → Bool} {x : Project}
    (hx : x ∈ l) (hpx : p x = false) : x ∈ l.eraseP p := by
  induction l with
  | nil => simp at hx
  | cons a t ih =>
    simp only [List.mem_cons] at hx
    simp only [List.eraseP]
    rcases hx with rfl | hx
    · simp [hpx]
    · cases h : p a
      · simp [ih hx]
      · simp [hx]

theorem length_le_eraseP_succ (l : List Project) (p : Project → Bool) :
    l.length ≤ (l.eraseP p).length + 1 := by
  induction l with
  | nil => simp [List.eraseP]
  | cons a t ih =>
    simp only [List.eraseP]
    cases h : p a
    · simpa using ih
    · simp

theorem pairwise_append_singleton {R : Project → Project → Prop} {l : List Project}
    {x : Project} (h1 : l.Pairwise R) (h2 : ∀ a ∈ l, R a x) :
    (l ++ [x]).Pairwise R := by
  rw [List.pairwise_append]
  refine ⟨h1, by simp, ?_⟩
  simpa using h2

/-- When a project keyed by (team, current event) is already stored,
`createNewProject` fails with the duplicate message and leaves the state
untouched, for every caller. -/
theorem createNewProject_dup (caller : Caller) (st : St) (b : CreateProjectBody)
    (q : Project)
    (h : st.projects.find? (fun p => p.team == b.team && p.event == st.tartanHacksId) = some q) :
    createNewProject caller st b =
      (.bad "You already have a project. Please edit or delete your existing project.", st) := by
  unfold createNewProject
  simp [h]

/-- When no duplicate exists and the ownership gate denies, the handler
returns the denial and leaves the state untouched. -/
theorem createNewProject_denied (caller : Caller) (st : St) (b : CreateProjectBody)
    (hdup : st.projects.find? (fun p => p.team == b.team && p.event == st.tartanHacksId) = none)
    (msg : String) (hden : createDenial caller st b.team = some msg) :
    createNewProject caller st b = (.bad msg, st) := by
  unfold createNewProject
  simp [hdup, hden]

/-- When no duplicate exists and the ownership gate passes, the handler
returns the freshly built project and appends it to the store. -/
theorem createNewProject_ok (caller : Caller) (st : St) (b : CreateProjectBody)
    (hdup : st.projects.find? (fun p => p.team == b.team && p.event == st.tartanHacksId) = none)
    (hden : createDenial caller st b.team = none) :
    createNewProject caller st b =
      (.ok (newProject st b),
       { st with projects := st.projects ++ [newProject st b], nextId := st.nextId + 1 }) := by
  unfold createNewProject
  simp [hdup, hden]

/-- A single `createNewProject` call preserves the per-(team, event)
uniqueness invariant over the stored projects. -/
theorem createNewProject_preserves (caller : Caller) (st : St) (b : CreateProjectBody)
    (h : uniquePerTeamEvent st.projects) :
    uniquePerTeamEvent (createNewProject caller st b).2.projects := by
  cases hfind : st.projects.find? (fun p => p.team == b.team && p.event == st.tartanHacksId) with
  | some q =>
    rw [createNewProject_dup caller st b q hfind]
    exact h
  | none =>
    cases hden : createDenial caller st b.team with
    | some msg =>
      rw [createNewProject_denied caller st b hfind msg hden]
      exact h
    | none =>
      rw [createNewProject_ok caller st b hfind hden]
      show uniquePerTeamEvent (st.projects ++ [newProject st b])
      refine pairwise_append_singleton h ?_
      intro a ha
      have hnone := List.find?_eq_none.mp hfind a ha
      simp only [Bool.and_eq_true, beq_iff_eq, not_and] at hnone
      intro hc
      rcases hc with ⟨ht, he⟩
      exact absurd he (hnone ht)

/-- When the project reference names no stored project, `enterProject`
fails with the invalid-project message and leaves the state untouched. -/
theorem enterProject_noProject (caller : Caller) (st : St) (id zid : Nat)
    (hp : st.projects.find? (fun q => q.pid == id) = none) :
    enterProject caller st (some id) (some zid) = (.bad "Invalid Project ID", st) := by
  unfold enterProject
  simp [hp]

/-- When the prize reference names no stored prize, `enterProject` fails
with the invalid-prize message and leaves the state untouched. -/
theorem enterProject_noPrize (caller : Caller) (st : St) (id zid : Nat) (p : Project)
    (hp : st.projects.find? (fun q => q.pid == id) = some p)
    (hz : st.prizes.find? (fun q => q.zid == zid) = none) :
    enterProject caller st (some id) (some zid) = (.bad "Invalid Prize ID", st) := by
  unfold enterProject
  simp [hp, hz]

/-- When both references resolve, `enterProject` inserts the prize id
into the project's prize set and returns the updated project. -/
theorem enterProject_found (caller : Caller) (st : St) (id zid : Nat)
    (p : Project) (z : Prize)
    (hp : st.projects.find? (fun q => q.pid == id) = some p)
    (hz : st.prizes.find? (fun q => q.zid == zid) = some z) :
    enterProject caller st (some id) (some zid) =
      (.ok (enterUpdate z p),
       { st with projects := updateProjects st.projects id (enterUpdate z) }) := by
  unfold enterProject
  have hup := find?_updateProjects st.projects id (enterUpdate z) (fun _ => rfl)
  simp [hp, hz, hup]

/-- Applying `enterProject` a second time with the same project and prize
references reproduces the first result exactly: same response, same
state. -/
theorem enterProject_idem (caller : Caller) (st : St) (idParam prizeIDParam : Option Nat) :
    enterProject caller (enterProject caller st idParam prizeIDParam).2 idParam prizeIDParam =
      enterProject caller st idParam prizeIDParam := by
  cases idParam with
  | none => rfl
  | some id =>
    cases prizeIDParam with
    | none => rfl
    | some zid =>
      cases hp : st.projects.find? (fun q => q.pid == id) with
      | none =>
        rw [enterProject_noProject caller st id zid hp]
        exact enterProject_noProject caller st id zid hp
      | some p =>
        cases hz : st.prizes.find? (fun q => q.zid == zid) with
        | none =>
          rw [enterProject_noPrize caller st id zid p hp hz]
          exact enterProject_noPrize caller st id zid p hp hz
        | some z =>
          rw [enterProject_found caller st id zid p z hp hz]
          show enterProject caller
              { st with projects := updateProjects st.projects id (enterUpdate z) }
              (some id) (some zid) = _
          have hp2 : (updateProjects st.projects id (enterUpdate z)).find?
              (fun q => q.pid == id) = some (enterUpdate z p) := by
            rw [find?_updateProjects st.projects id (enterUpdate z) (fun _ => rfl), hp]
            rfl
          rw [enterProject_found caller
            { st with projects := updateProjects st.projects id (enterUpdate z) }
            id zid (enterUpdate z p) z hp2 hz]
          rw [enterUpdate_idem z p,
            updateProjects_idem st.projects id (enterUpdate z) (fun _ => rfl)
              (enterUpdate_idem z)]

/-! ### Claim theorems -/

/-- C1: for every (team, event) pair, after any sequence of
`createNewProject` calls at most one project exists for that pair: when a
project keyed by (team, current event) is already stored the call fails
with the duplicate-project response and inserts nothing, and the
per-(team, event) uniqueness invariant is preserved by every sequence of
calls. -/
theorem claim_C1 :
    (∀ (caller : Caller) (st : St) (b : CreateProjectBody) (q : Project),
      st.projects.find? (fun p => p.team == b.team && p.event == st.tartanHacksId) = some q →
      createNewProject caller st b =
        (.bad "You already have a project. Please edit or delete your existing project.", st)) ∧
    (∀ (calls : List (Caller × CreateProjectBody)) (st : St),
      uniquePerTeamEvent st.projects →
      uniquePerTeamEvent (runCreates calls st).projects) := by
  constructor
  · exact createNewProject_dup
  · intro calls
    induction calls with
    | nil => exact fun st h => h
    | cons cb rest ih =>
      intro st h
      exact ih _ (createNewProject_preserves cb.1 st cb.2 h)

theorem claim_C1_witness :
    createNewProject (Caller.mk 100 false) stW bodyTeam1 =
      (.bad "You already have a project. Please edit or delete your existing project.", stW) ∧
    uniquePerTeamEvent (runCreates [(Caller.mk 100 false, bodyTeam1)] stW).projects :=
  ⟨claim_C1.1 (Caller.mk 100 false) stW bodyTeam1 projA rfl,
   claim_C1.2 [(Caller.mk 100 false, bodyTeam1)] stW (by decide)⟩

/-- C2 fails on the code: the duplicate-project check runs before the
ownership gate.  Concretely, caller 300 has no team (the authorizer would
deny with `NoTeam`), yet targeting team 1 — which already has a project
for the current event — the caller receives the duplicate-project
failure, not the authorization denial. -/
theorem claim_C2_counterexample :
    authorize noTeamUser.admin ((findUserTeam stW noTeamUser.uid).map Team.tid)
        bodyTeam1.team = .DENY .NoTeam ∧
    createNewProject noTeamUser stW bodyTeam1 =
      (.bad "You already have a project. Please edit or delete your existing project.", stW) ∧
    "You already have a project. Please edit or delete your existing project." ≠
      reasonMsg .NoTeam ∧
    "You already have a project. Please edit or delete your existing project." ≠
      reasonMsg .NotOwner := by
  refine ⟨rfl, rfl, ?_, ?_⟩ <;> decide

/-- C2 amended: the duplicate-project check is evaluated before the
ownership gate.  When the targeted team already has a project for the
current event every caller — including one the authorizer would deny —
receives the duplicate-project failure; only when no duplicate exists is
the authorization decision evaluated, and a denied caller then receives
the denial matching the authorizer's reason. -/
theorem claim_C2_amended (caller : Caller) (st : St) (b : CreateProjectBody) :
    (∀ q, st.projects.find? (fun p => p.team == b.team && p.event == st.tartanHacksId) = some q →
      createNewProject caller st b =
        (.bad "You already have a project. Please edit or delete your existing project.", st)) ∧
    (st.projects.find? (fun p => p.team == b.team && p.event == st.tartanHacksId) = none →
      ∀ r, authorize caller.admin ((findUserTeam st caller.uid).map Team.tid) b.team = .DENY r →
        createNewProject caller st b = (.bad (reasonMsg r), st)) := by
  constructor
  · exact createNewProject_dup caller st b
  · intro hdup r hr
    apply createNewProject_denied caller st b hdup
    rw [createDenial_eq_authorize, hr]

theorem claim_C2_amended_witness :
    createNewProject noTeamUser stW bodyTeam1 =
      (.bad "You already have a project. Please edit or delete your existing project.", stW) ∧
    createNewProject noTeamUser stW bodyTeam2 = (.bad (reasonMsg .NoTeam), stW) :=
  ⟨(claim_C2_amended noTeamUser stW bodyTeam1).1 projA rfl,
   (claim_C2_amended noTeamUser stW bodyTeam2).2 rfl .NoTeam rfl⟩

/-- C3: every admin caller is allowed by the Ownership Authorizer for any
target, and `createNewProject` run by an admin never produces an
ownership or team-membership denial: it either hits the duplicate
invariant or succeeds. -/
theorem claim_C3 (ut : Option Nat) (t : Nat) (caller : Caller) (st : St)
    (b : CreateProjectBody) (hadm : caller.admin = true) :
    authorize true ut t = .ALLOW ∧
    ((createNewProject caller st b).1 =
        .bad "You already have a project. Please edit or delete your existing project." ∨
      (createNewProject caller st b).1 = .ok (newProject st b)) := by
  refine ⟨rfl, ?_⟩
  cases hfind : st.projects.find? (fun p => p.team == b.team && p.event == st.tartanHacksId) with
  | some q =>
    left
    rw [createNewProject_dup caller st b q hfind]
  | none =>
    right
    have hden : createDenial caller st b.team = none := by
      unfold createDenial
      simp [hadm]
    rw [createNewProject_ok caller st b hfind hden]

theorem claim_C3_witness :
    authorize true (some 1) 2 = .ALLOW ∧
    ((createNewProject (Caller.mk 100 true) stW bodyTeam2).1 =
        .bad "You already have a project. Please edit or delete your existing project." ∨
      (createNewProject (Caller.mk 100 true) stW bodyTeam2).1 =
        .ok (newProject stW bodyTeam2)) :=
  claim_C3 (some 1) 2 (Caller.mk 100 true) stW bodyTeam2 rfl

/-- C4: a participant whose resolved team differs from the target team is
denied with reason `NotOwner` by the Ownership Authorizer, and (absent a
duplicate project, which is checked first) `createNewProject` rejects
such a caller with the not-owner message and leaves the state
untouched. -/
theorem claim_C4 (ut t : Nat) (hne : ut ≠ t) (caller : Caller) (st : St)
    (b : CreateProjectBody) (hadm : caller.admin = false) (tm : Team)
    (hteam : findUserTeam st caller.uid = some tm) (hown : tm.tid ≠ b.team)
    (hdup : st.projects.find? (fun p => p.team == b.team && p.event == st.tartanHacksId) = none) :
    authorize false (some ut) t = .DENY .NotOwner ∧
    createNewProject caller st b = (.bad "You can only create projects for your team.", st) := by
  constructor
  · simp [authorize, hne]
  · apply createNewProject_denied caller st b hdup
    unfold createDenial
    simp [hadm, hteam, hown]

theorem claim_C4_witness :
    authorize false (some 1) 2 = .DENY .NotOwner ∧
    createNewProject (Caller.mk 100 false) stW bodyTeam2 =
      (.bad "You can only create projects for your team.", stW) :=
  claim_C4 1 2 (by decide) (Caller.mk 100 false) stW bodyTeam2 rfl teamA rfl
    (by decide) rfl

/-- C5: a non-admin caller whose resolved team is null is denied with
reason `NoTeam`, which is distinct from `NotOwner` both as a reason and
as the message `createNewProject` returns; absent a duplicate project the
handler rejects such a caller with the no-team message and leaves the
state untouched. -/
theorem claim_C5 (t : Nat) (caller : Caller) (st : St) (b : CreateProjectBody)
    (hadm : caller.admin = false) (hnoteam : findUserTeam st caller.uid = none)
    (hdup : st.projects.find? (fun p => p.team == b.team && p.event == st.tartanHacksId) = none) :
    authorize false none t = .DENY .NoTeam ∧
    Reason.NoTeam ≠ Reason.NotOwner ∧
    createNewProject caller st b = (.bad "You must be in a team to create a project.", st) ∧
    reasonMsg .NoTeam ≠ reasonMsg .NotOwner := by
  refine ⟨rfl, by decide, ?_, by decide⟩
  apply createNewProject_denied caller st b hdup
  unfold createDenial
  simp [hadm, hnoteam]

theorem claim_C5_witness :
    authorize false none 2 = .DENY .NoTeam ∧
    Reason.NoTeam ≠ Reason.NotOwner ∧
    createNewProject noTeamUser stW bodyTeam2 =
      (.bad "You must be in a team to create a project.", stW) ∧
    reasonMsg .NoTeam ≠ reasonMsg .NotOwner :=
  claim_C5 2 noTeamUser stW bodyTeam2 rfl rfl rfl

/-- C6: `enterProject` is idempotent — applying it a second time with the
same project and prize references reproduces the first response and state
exactly (in particular the project's prize set is unchanged) — and when
both references resolve the call succeeds with the set-inserted project;
re-entering an already-entered prize succeeds returning the project
unchanged, not an error. -/
theorem claim_C6 (caller : Caller) (st : St) :
    (∀ idParam prizeIDParam,
      enterProject caller (enterProject caller st idParam prizeIDParam).2 idParam prizeIDParam =
        enterProject caller st idParam prizeIDParam) ∧
    (∀ id zid p z,
      st.projects.find? (fun q => q.pid == id) = some p →
      st.prizes.find? (fun q => q.zid == zid) = some z →
      (enterProject caller st (some id) (some zid)).1 = .ok (enterUpdate z p)) ∧
    (∀ id zid p z,
      st.projects.find? (fun q => q.pid == id) = some p →
      st.prizes.find? (fun q => q.zid == zid) = some z →
      z.zid ∈ p.prizes →
      (enterProject caller st (some id) (some zid)).1 = .ok p) := by
  refine ⟨enterProject_idem caller st, ?_, ?_⟩
  · intro id zid p z hp hz
    rw [enterProject_found caller st id zid p z hp hz]
  · intro id zid p z hp hz hmem
    rw [enterProject_found caller st id zid p z hp hz, enterUpdate_of_mem hmem]

theorem claim_C6_witness :
    enterProject (Caller.mk 100 false)
        (enterProject (Caller.mk 100 false) stW (some 10) (some 3)).2 (some 10) (some 3) =
      enterProject (Caller.mk 100 false) stW (some 10) (some 3) ∧
    (enterProject (Caller.mk 100 false) stW (some 10) (some 3)).1 = .ok projA :=
  ⟨(claim_C6 (Caller.mk 100 false) stW).1 (some 10) (some 3),
   (claim_C6 (Caller.mk 100 false) stW).2.2 10 3 projA przA rfl rfl (by decide)⟩

/-- C7 fails on the code: a missing project reference makes `enterProject`
fail with the 400 `bad` response "Invalid Project ID" (the `Invalid`
kind), which is distinct from the `notFound` (404) outcome the code uses
elsewhere for absent entities — so the failure kind is not `NotFound`.
The state is untouched, as the claim says. -/
theorem claim_C7_counterexample :
    enterProject (Caller.mk 100 false) stW (some 5) (some 9) =
      (.bad "Invalid Project ID", stW) ∧
    (Response.bad "Invalid Project ID" : Response Project) ≠ .notFound := by
  exact ⟨rfl, by decide⟩

/-- C7 amended: when the project reference or the prize reference names
no stored entity, `enterProject` fails with the 400 `bad` responses
"Invalid Project ID" / "Invalid Prize ID" (not with the 404 `notFound`
outcome), and the state — in particular every stored project's prize
set — is unchanged by the failed call. -/
theorem claim_C7_amended (caller : Caller) (st : St) (id zid : Nat) :
    (st.projects.find? (fun q => q.pid == id) = none →
      enterProject caller st (some id) (some zid) = (.bad "Invalid Project ID", st) ∧
      (.bad "Invalid Project ID" : Response Project) ≠ .notFound) ∧
    (∀ p, st.projects.find? (fun q => q.pid == id) = some p →
      st.prizes.find? (fun q => q.zid == zid) = none →
      enterProject caller st (some id) (some zid) = (.bad "Invalid Prize ID", st) ∧
      (.bad "Invalid Prize ID" : Response Project) ≠ .notFound) := by
  constructor
  · intro hp
    exact ⟨enterProject_noProject caller st id zid hp, by decide⟩
  · intro p hp hz
    exact ⟨enterProject_noPrize caller st id zid p hp hz, by decide⟩

theorem claim_C7_amended_witness :
    (enterProject (Caller.mk 100 false) stW (some 5) (some 9) =
        (.bad "Invalid Project ID", stW) ∧
      (.bad "Invalid Project ID" : Response Project) ≠ .notFound) ∧
    (enterProject (Caller.mk 100 false) stW (some 10) (some 9) =
        (.bad "Invalid Prize ID", stW) ∧
      (.bad "Invalid Prize ID" : Response Project) ≠ .notFound) :=
  ⟨(claim_C7_amended (Caller.mk 100 false) stW 5 9).1 rfl,
   (claim_C7_amended (Caller.mk 100 false) stW 10 9).2 projA rfl rfl⟩

/-- C8: the by-user-id project lookup resolves the team exclusively
through `findUserTeam` on the path user id: the response is identical for
every value of a caller-supplied team identifier carried alongside, a
user with no resolved team gets the no-team denial rather than a project,
and a user with a resolved team gets exactly the by-team lookup on their
own resolved team. -/
theorem claim_C8 (st : St) (u : Nat) :
    (∀ t1 t2, getProjectByUserID st (UserProjectRequest.mk u t1) =
      getProjectByUserID st (UserProjectRequest.mk u t2)) ∧
    (∀ forged, findUserTeam st u = none →
      getProjectByUserID st (UserProjectRequest.mk u forged) =
        (.bad "User does not have a team!", st)) ∧
    (∀ forged tm, findUserTeam st u = some tm →
      getProjectByUserID st (UserProjectRequest.mk u forged) =
        getProjectByTeamID st tm.tid) := by
  refine ⟨fun t1 t2 => rfl, ?_, ?_⟩
  · intro forged h
    unfold getProjectByUserID
    simp [h]
  · intro forged tm h
    unfold getProjectByUserID
    simp [h]

theorem claim_C8_witness :
    getProjectByUserID stW (UserProjectRequest.mk 100 (some 2)) =
      getProjectByUserID stW (UserProjectRequest.mk 100 (some 999)) ∧
    getProjectByUserID stW (UserProjectRequest.mk 300 (some 1)) =
      (.bad "User does not have a team!", stW) ∧
    getProjectByUserID stW (UserProjectRequest.mk 100 (some 2)) =
      getProjectByTeamID stW teamA.tid :=
  ⟨(claim_C8 stW 100).1 (some 2) (some 999),
   (claim_C8 stW 300).2.1 (some 1) rfl,
   (claim_C8 stW 100).2.2 (some 2) teamA rfl⟩

/-- C9: the outcome of `enterProject` is independent of the caller's
identity — any two callers produce the same response and the same state
change, since no role or ownership check is consulted on this path. -/
theorem claim_C9 (c1 c2 : Caller) (st : St) (idParam prizeIDParam : Option Nat) :
    enterProject c1 st idParam prizeIDParam = enterProject c2 st idParam prizeIDParam := rfl

/-- C10: `deleteProject` is unconditional — for every id, including one
naming no stored project, it reports the success message (never the 404
`notFound` outcome), removes at most the one matching project (every
non-matching project is retained, the result is a sublist, at most one
element shorter), and changes no other stored state: prizes (hence every
prize's winner reference), teams, the current event and the id counter
are untouched. -/
theorem claim_C10 (st : St) (id : Nat) :
    (deleteProject st (some id)).1 = .ok "Successfully deleted project." ∧
    (deleteProject st (some id)).1 ≠ .notFound ∧
    List.Sublist (deleteProject st (some id)).2.projects st.projects ∧
    st.projects.length ≤ (deleteProject st (some id)).2.projects.length + 1 ∧
    (∀ p ∈ st.projects, p.pid ≠ id → p ∈ (deleteProject st (some id)).2.projects) ∧
    (deleteProject st (some id)).2.prizes = st.prizes ∧
    (deleteProject st (some id)).2.teams = st.teams ∧
    (deleteProject st (some id)).2.tartanHacksId = st.tartanHacksId ∧
    (deleteProject st (some id)).2.nextId = st.nextId := by
  refine ⟨rfl, by simp [deleteProject], ?_, ?_, ?_, rfl, rfl, rfl, rfl⟩
  · exact List.eraseP_sublist st.projects
  · exact length_le_eraseP_succ st.projects _
  · intro p hp hne
    apply mem_eraseP_of_not hp
    simp [hne]

theorem claim_C10_witness :
    (deleteProject stW (some 5)).1 = .ok "Successfully deleted project." ∧
    projA ∈ (deleteProject stW (some 5)).2.projects :=
  ⟨(claim_C10 stW 5).1,
   (claim_C10 stW 5).2.2.2.2.1 projA (by simp [stW]) (by decide)⟩
